import Mathlib

/-!
Shallow embedding of the order / payment-reminder core of a Django e-commerce
backend (`shop` app): the data model (`Category`/`Product`/`Order`/`OrderItem`),
order creation with price snapshotting and total computation
(`OrderCreateSerializer.create`), total recalculation (`Order.recalculate_totals`
triggered by `OrderItem` save/delete signals), the payment-reminder Celery batch
(`send_payment_reminders`), and the top-products statistics query
(`TopProductsStatsView.get` with `TopProductsQuerySerializer`).

Conventions of the embedding:
- decimal money amounts are integers in minor units (cents); dates are day
  numbers (`Nat`);
- the database is a record of lists of rows; an operation is a pure function
  from `DB` to `DB` (plus results);
- fallible operations return `Except`: an `Except.error` models a Django
  `ValidationError` raised before persistence (or, for the reminder batch, an
  exception propagating out of the task), and carries no new state — mirroring
  `transaction.atomic` rollback / nothing-committed-yet semantics.
-/

namespace Shop

/-- Row of the `Product` table (category/name/description omitted fields that no
claim touches are kept only where needed; `price` is `DecimalField` in cents). -/
structure Product where
  id : Nat
  categoryId : Nat
  name : String
  price : Int
  deriving Repr, DecidableEq

/-- Customer (Django auth user) as seen by the shop flows: primary key and
optional email (empty string models a blank email field, which is falsy). -/
structure Customer where
  id : Nat
  email : Option String
  deriving Repr, DecidableEq

/-- Row of the `Order` table. `createdAt` is the `auto_now_add` creation date
(day number); `paymentDueDate` is nullable (`blank=True, null=True`). -/
structure Order where
  id : Nat
  customerId : Nat
  shippingAddress : String
  createdAt : Nat
  paymentDueDate : Option Nat
  totalPrice : Int
  isPaid : Bool
  paymentReminderSent : Bool
  deriving Repr, DecidableEq

/-- Row of the `OrderItem` table: FK to order and product, positive quantity,
snapshotted unit price. -/
structure OrderItem where
  orderId : Nat
  productId : Nat
  quantity : Nat
  unitPrice : Int
  deriving Repr, DecidableEq

/-- State of the relational store for the shop app. -/
structure DB where
  products : List Product
  customers : List Customer
  orders : List Order
  orderItems : List OrderItem
  deriving Repr, DecidableEq

/-- Lookup `Product.objects.get(pk=pid)` (as `PrimaryKeyRelatedField` resolution). -/
def findProduct (db : DB) (pid : Nat) : Option Product :=
  db.products.find? fun p => p.id == pid

/-- Lookup of an order row by primary key. -/
def findOrder (db : DB) (oid : Nat) : Option Order :=
  db.orders.find? fun o => o.id == oid

/-- Lookup of a customer row by primary key. -/
def findCustomer (db : DB) (cid : Nat) : Option Customer :=
  db.customers.find? fun c => c.id == cid

/-- Sum of `quantity * unit_price` over the persisted items of order `oid`:
the loop body of `Order.recalculate_totals` in `shop/models.py`. -/
def itemsTotal (db : DB) (oid : Nat) : Int :=
  ((db.orderItems.filter fun it => it.orderId == oid).map
    fun it => (it.quantity : Int) * it.unitPrice).sum

/-- Embedding of `Order.recalculate_totals` (`shop/models.py`): recompute the
total from the order's items and persist it via
`save(update_fields=["total_price"])` — only `total_price` is written. -/
def recalculate_totals (db : DB) (oid : Nat) : DB :=
  { db with
    orders := db.orders.map fun o =>
      if o.id = oid then { o with totalPrice := itemsTotal db oid } else o }

/-- ORM save of an `OrderItem` row: replace the row keyed by the unique
`(order, product)` pair when present, else insert it. -/
def upsertItem (items : List OrderItem) (it : OrderItem) : List OrderItem :=
  if items.any fun x => x.orderId == it.orderId && x.productId == it.productId then
    items.map fun x =>
      if x.orderId == it.orderId && x.productId == it.productId then it else x
  else items ++ [it]

/-- Saving an `OrderItem` (add or edit) followed by the `post_save` signal
`recalc_order_total_on_orderitem_save` (`shop/signals.py`), which calls
`instance.order.recalculate_totals()`. -/
def saveOrderItem (db : DB) (it : OrderItem) : DB :=
  recalculate_totals { db with orderItems := upsertItem db.orderItems it } it.orderId

/-- Deleting an `OrderItem` followed by the `post_delete` signal
`recalc_order_total_on_orderitem_delete` (`shop/signals.py`). -/
def deleteOrderItem (db : DB) (oid pid : Nat) : DB :=
  recalculate_totals
    { db with
      orderItems := db.orderItems.filter fun x => !(x.orderId == oid && x.productId == pid) }
    oid

/-- Primary key the database would assign to a freshly inserted order row. -/
def nextOrderId (db : DB) : Nat :=
  (db.orders.map (·.id)).foldr Nat.max 0 + 1

/-- Embedding of `Order.save` (`shop/models.py`): on save, if `payment_due_date`
is unset, default it to (`created_at.date()` if the row already has a pk, else
`timezone.localdate()`) plus 5 days; a supplied due date is kept. -/
def orderSaveDueDate (o : Order) (isNew : Bool) (today : Nat) : Order :=
  match o.paymentDueDate with
  | none => { o with paymentDueDate := some ((if isNew then today else o.createdAt) + 5) }
  | some _ => o

/-- Line of the order-creation input: `{"product": <id>, "quantity": <int>}`
(`OrderItemCreateSerializer`). -/
structure ItemInput where
  productId : Nat
  quantity : Nat
  deriving Repr, DecidableEq

/-- Price of product `pid` at the current state; used by the creation flow
(`unit_price = product.price`). Validation guarantees the product exists, so
the 0 default is never reached on a validated input. -/
def priceOf (db : DB) (pid : Nat) : Int :=
  ((findProduct db pid).map (·.price)).getD 0

/-- Embedding of `OrderCreateSerializer` validation followed by its `create`
(`shop/serializers.py`): `validate_items` rejects an empty list; the child
serializer rejects unknown product references and quantities below 1; then,
inside `transaction.atomic()`, the order row is created (`Order.save` fills the
due date with today + 5 days), each line snapshots `product.price` into
`unit_price`, the total is summed as `quantity * unit_price` over the lines,
and order plus items are persisted together. On error nothing is persisted. -/
def createOrder (db : DB) (customerId : Nat) (addr : String) (today : Nat)
    (items : List ItemInput) : Except String (DB × Nat) :=
  if items.isEmpty then .error "Items list must not be empty." else
  if !(items.all fun i => (findProduct db i.productId).isSome) then
    .error "Invalid pk - object does not exist." else
  if !(items.all fun i => 1 ≤ i.quantity) then
    .error "Ensure this value is greater than or equal to 1." else
  let oid := nextOrderId db
  let order0 : Order :=
    { id := oid, customerId := customerId, shippingAddress := addr, createdAt := today,
      paymentDueDate := none, totalPrice := 0, isPaid := false, paymentReminderSent := false }
  let order1 := orderSaveDueDate order0 true today
  let newItems : List OrderItem := items.map fun i =>
    { orderId := oid, productId := i.productId, quantity := i.quantity,
      unitPrice := priceOf db i.productId }
  let total : Int := (newItems.map fun it => (it.quantity : Int) * it.unitPrice).sum
  let order2 := { order1 with totalPrice := total }
  .ok ({ db with orders := db.orders ++ [order2], orderItems := db.orderItems ++ newItems }, oid)

/-- Database state after an order-creation attempt: an `Except.error` from
`createOrder` models a `ValidationError` raised before persistence (or an
atomic rollback), so the state is the unchanged input state. -/
def createOrderEndState (db : DB) (customerId : Nat) (addr : String) (today : Nat)
    (items : List ItemInput) : DB :=
  match createOrder db customerId addr today items with
  | .error _ => db
  | .ok (db1, _) => db1

/-- Catalog price update on a product (the mutation C5 guards against). -/
def setProductPrice (db : DB) (pid : Nat) (newPrice : Int) : DB :=
  { db with
    products := db.products.map fun p =>
      if p.id = pid then { p with price := newPrice } else p }

/-- Invariant of the spec:
`Order.total_price == sum(item.quantity * item.unit_price for item in order.items)`
for every persisted order. -/
def totalsInvariant (db : DB) : Prop :=
  ∀ o ∈ db.orders, o.totalPrice = itemsTotal db o.id

/-- Referential well-formedness: every item's FK points at an existing order
(enforced by the database schema). -/
def wfItems (db : DB) : Prop :=
  ∀ it ∈ db.orderItems, ∃ o ∈ db.orders, o.id = it.orderId

/-! ### Payment-reminder batch (`shop/tasks.py`, `send_payment_reminders`) -/

/-- Outcome of one `send_mail(..., fail_silently=False)` call for a given
order: it returns 1 (`delivered`), returns 0 (`notDelivered`), or raises an
`SMTPException`/`OSError` (`raised`). -/
inductive SendOutcome where
  | delivered
  | notDelivered
  | raised
  deriving Repr, DecidableEq

/-- Filter of the reminder queryset:
`payment_due_date == tomorrow AND is_paid == False AND payment_reminder_sent == False`
where `tomorrow = today + 1`. -/
def reminderPred (today : Nat) (o : Order) : Bool :=
  o.paymentDueDate == some (today + 1) && !o.isPaid && !o.paymentReminderSent

/-- Insertion step of the sort used to model the database's `ORDER BY`. -/
def insertSorted (le : α → α → Bool) (x : α) : List α → List α
  | [] => [x]
  | y :: ys => if le x y then x :: y :: ys else y :: insertSorted le x ys

/-- Stable structural sort modelling the database's `ORDER BY` comparator. -/
def sortWith (le : α → α → Bool) : List α → List α
  | [] => []
  | x :: xs => insertSorted le x (sortWith le xs)

/-- Comparison realising the queryset's `.order_by("pk")`. -/
def orderPkLe (a b : Order) : Bool :=
  decide (a.id ≤ b.id)

/-- Orders the reminder batch iterates over: the filtered table in ascending
pk order (the queryset is evaluated once; chunked iteration does not re-run
the query). -/
def selectReminders (db : DB) (today : Nat) : List Order :=
  sortWith orderPkLe (db.orders.filter (reminderPred today))

/-- Single-field update `order.save(update_fields=["payment_reminder_sent"])`
after a successful send. -/
def markReminderSent (db : DB) (oid : Nat) : DB :=
  { db with
    orders := db.orders.map fun o =>
      if o.id = oid then { o with paymentReminderSent := true } else o }

/-- Email the batch would use for an order:
`getattr(order.customer, "email", None)`, with blank treated as missing
(`if not email: skip`). -/
def emailOf (db : DB) (o : Order) : Option String :=
  match findCustomer db o.customerId with
  | none => none
  | some c =>
    match c.email with
    | none => none
    | some e => if e = "" then none else some e

/-- Loop body of `send_payment_reminders` over the selected orders: skip an
order with no customer email; otherwise send — a raised delivery exception
propagates (`fail_silently=False`), aborting the loop with the state committed
so far; a send that returns 1 marks the order and counts it; a send that
returns 0 is only logged. -/
def reminderLoop (send : Nat → SendOutcome) :
    List Order → DB → Nat → Except DB (DB × Nat)
  | [], db, sent => .ok (db, sent)
  | o :: rest, db, sent =>
    match emailOf db o with
    | none => reminderLoop send rest db sent
    | some _ =>
      match send o.id with
      | .raised => .error db
      | .delivered => reminderLoop send rest (markReminderSent db o.id) (sent + 1)
      | .notDelivered => reminderLoop send rest db sent

/-- Embedding of the Celery task `send_payment_reminders` (`shop/tasks.py`):
select unpaid, unreminded orders due tomorrow in pk order and process them.
`send` models the mail backend per order id. `Except.ok (db1, n)` is a normal
return of `n` (the count of successfully sent reminders) in state `db1`;
`Except.error db1` is an exception propagating out of the task (handed to
Celery's autoretry), leaving state `db1`. -/
def send_payment_reminders (db : DB) (today : Nat) (send : Nat → SendOutcome) :
    Except DB (DB × Nat) :=
  reminderLoop send (selectReminders db today) db 0

/-! ### Top-products statistics (`shop/views.py`, `TopProductsStatsView.get`) -/

/-- Inclusive date-range test `created_date__range=(date_from, date_to)`. -/
def inRange (dfrom dto d : Nat) : Bool :=
  dfrom ≤ d && d ≤ dto

/-- OrderItems whose parent order was created within the range: the filtered
join `OrderItem.objects.annotate(created_date=TruncDate("order__created_at"))
.filter(created_date__range=...)`. The FK is non-null, so a dangling item
(no parent row) simply joins to nothing. -/
def itemsInRange (db : DB) (dfrom dto : Nat) : List OrderItem :=
  db.orderItems.filter fun it =>
    match findOrder db it.orderId with
    | some o => inRange dfrom dto o.createdAt
    | none => false

/-- Aggregate `Sum("quantity")` for one product over the in-range items. -/
def unitsOf (db : DB) (dfrom dto pid : Nat) : Nat :=
  (((itemsInRange db dfrom dto).filter fun it => it.productId == pid).map (·.quantity)).sum

/-- Product ids appearing among the in-range items — the groups produced by
`.values("product")`. -/
def rangeProductIds (db : DB) (dfrom dto : Nat) : List Nat :=
  ((itemsInRange db dfrom dto).map (·.productId)).dedup

/-- Grouped rows `(product_id, units_ordered)` before sorting and limiting. -/
def aggRows (db : DB) (dfrom dto : Nat) : List (Nat × Nat) :=
  (rangeProductIds db dfrom dto).map fun pid => (pid, unitsOf db dfrom dto pid)

/-- Comparison realising `.order_by("-units_ordered", "product")`: descending
summed quantity, ties broken by ascending product id. -/
def statKey (a b : Nat × Nat) : Bool :=
  decide (b.2 < a.2) || (a.2 == b.2 && decide (a.1 ≤ b.1))

/-- Embedding of the data part of `TopProductsStatsView.get`: group the
in-range items by product, sum quantities, sort by descending total with
ascending-id tie-break, and truncate to `limit` rows (`[:limit]`). -/
def top_products (db : DB) (dfrom dto limit : Nat) : List (Nat × Nat) :=
  (sortWith statKey (aggRows db dfrom dto)).take limit

/-- Embedding of `TopProductsQuerySerializer` (`shop/serializers.py`):
`date_from`/`date_to` are required dates, `limit` is optional with default 10
and bounds `min_value=1, max_value=100` (field validation), and the
serializer-level `validate` rejects `date_from > date_to`. -/
def validateTopQuery (dateFrom dateTo : Nat) (limit : Option Int) :
    Except String (Nat × Nat × Int) :=
  let l := limit.getD 10
  if l < 1 then .error "Ensure this value is greater than or equal to 1."
  else if 100 < l then .error "Ensure this value is less than or equal to 100."
  else if dateTo < dateFrom then .error "date_from must not be after date_to."
  else .ok (dateFrom, dateTo, l)

/-- Embedding of `TopProductsStatsView.get`: validate the query parameters
first (`is_valid(raise_exception=True)`); only on success run the aggregate
query. A validation failure is an error response — no data is read. -/
def topProductsView (db : DB) (dateFrom dateTo : Nat) (limit : Option Int) :
    Except String (List (Nat × Nat)) :=
  match validateTopQuery dateFrom dateTo limit with
  | .error e => .error e
  | .ok (df, dt, l) => .ok (top_products db df dt l.toNat)

/-- Predicate picking out the error constructor of an `Except` result. -/
def isError : Except ε α → Bool
  | .error _ => true
  | .ok _ => false

/-! ### Concrete fixtures used by witness theorems -/

/-- Sample store: two products, one customer with an email, one order due
tomorrow (day 1) holding one line of 2 × 500; its total 1000 satisfies the
totals invariant. -/
def dbW : DB :=
  { products := [⟨1, 1, "Mug", 500⟩, ⟨2, 1, "Cap", 300⟩],
    customers := [⟨1, some "user@example.com"⟩],
    orders := [⟨1, 1, "Main St 1", 0, some 1, 1000, false, false⟩],
    orderItems := [⟨1, 1, 2, 500⟩] }

/-- Sample edited line for order 1: quantity changed from 2 to 3. -/
def itW : OrderItem := ⟨1, 1, 3, 500⟩

/-- Sample unsaved order with no due date, created on day 7. -/
def oW8 : Order := ⟨2, 1, "Side St 9", 7, none, 0, false, false⟩

/-- Store with two orders both due tomorrow, both customers with emails:
fixture for the reminder-failure counterexample. -/
def dbC4 : DB :=
  { products := [],
    customers := [⟨1, some "a@example.com"⟩, ⟨2, some "b@example.com"⟩],
    orders := [⟨1, 1, "A St", 0, some 1, 100, false, false⟩,
               ⟨2, 2, "B St", 0, some 1, 200, false, false⟩],
    orderItems := [] }

/-- Mail backend that raises on order 1 and delivers for every other order. -/
def sendC4 : Nat → SendOutcome :=
  fun i => if i = 1 then .raised else .delivered

end Shop

namespace Shop

/-! ### Helper lemmas -/

theorem le_foldr_max (l : List Nat) (x : Nat) (hx : x ∈ l) : x ≤ l.foldr Nat.max 0 := by
  induction l with
  | nil => cases hx
  | cons a t ih =>
    rcases List.mem_cons.mp hx with h | h
    · subst h; exact Nat.le_max_left _ _
    · exact Nat.le_trans (ih h) (Nat.le_max_right _ _)

theorem id_lt_nextOrderId (db : DB) (o : Order) (h : o ∈ db.orders) :
    o.id < nextOrderId db := by
  have := le_foldr_max (db.orders.map (·.id)) o.id (List.mem_map_of_mem _ h)
  unfold nextOrderId
  omega

theorem forall2_map_self {α β : Type} (P : α → β → Prop) (l : List α) (f : α → β)
    (h : ∀ x ∈ l, P x (f x)) : List.Forall₂ P l (l.map f) := by
  induction l with
  | nil => simp
  | cons a t ih => simp_all

theorem insertSorted_perm (le : α → α → Bool) (x : α) (l : List α) :
    List.Perm (insertSorted le x l) (x :: l) := by
  induction l with
  | nil => exact List.Perm.refl _
  | cons y ys ih =>
    by_cases h : le x y = true
    · simp [insertSorted, h]
    · rw [insertSorted, if_neg h]
      exact (ih.cons y).trans (List.Perm.swap x y ys)

theorem sortWith_perm (le : α → α → Bool) (l : List α) :
    List.Perm (sortWith le l) l := by
  induction l with
  | nil => exact List.Perm.refl _
  | cons x xs ih => exact (insertSorted_perm le x (sortWith le xs)).trans (ih.cons x)

theorem insertSorted_pairwise (le : α → α → Bool)
    (htrans : ∀ a b c, le a b = true → le b c = true → le a c = true)
    (htot : ∀ a b, le a b = true ∨ le b a = true) (x : α) (l : List α)
    (h : l.Pairwise (fun a b => le a b = true)) :
    (insertSorted le x l).Pairwise (fun a b => le a b = true) := by
  induction l with
  | nil => simp [insertSorted]
  | cons y ys ih =>
    obtain ⟨hy, hys⟩ := List.pairwise_cons.mp h
    by_cases hxy : le x y = true
    · rw [insertSorted, if_pos hxy]
      exact List.Pairwise.cons
        (by
          intro z hz
          rcases List.mem_cons.mp hz with hz | hz
          · exact hz ▸ hxy
          · exact htrans x y z hxy (hy z hz))
        h
    · rw [insertSorted, if_neg hxy]
      exact List.Pairwise.cons
        (by
          intro z hz
          rcases List.mem_cons.mp ((insertSorted_perm le x ys).mem_iff.mp hz) with hz | hz
          · rw [hz]
            rcases htot x y with ht | ht
            · exact absurd ht hxy
            · exact ht
          · exact hy z hz)
        (ih hys)

theorem sortWith_pairwise (le : α → α → Bool)
    (htrans : ∀ a b c, le a b = true → le b c = true → le a c = true)
    (htot : ∀ a b, le a b = true ∨ le b a = true) (l : List α) :
    (sortWith le l).Pairwise (fun a b => le a b = true) := by
  induction l with
  | nil => simp [sortWith]
  | cons x xs ih => exact insertSorted_pairwise le htrans htot x (sortWith le xs) ih

theorem validateTopQuery_ok_le (df dt : Nat) (lim : Option Int) (v : Nat × Nat × Int)
    (h : validateTopQuery df dt lim = .ok v) : df ≤ dt := by
  unfold validateTopQuery at h
  by_cases h1 : (lim.getD 10) < 1
  · simp [h1] at h
  · by_cases h2 : 100 < lim.getD 10
    · simp [h1, h2] at h
    · by_cases h3 : dt < df
      · simp [h1, h2, h3] at h
      · omega

/-! ### C2: empty item list -/

/-- C2: an order-creation input with an empty items list fails validation with
the `validate_items` error, and the resulting state is the unchanged input
state — no `Order` or `OrderItem` row is persisted. -/
theorem create_empty_items_rejected (db : DB) (c : Nat) (a : String) (t : Nat)
    (items : List ItemInput) (h : items.isEmpty = true) :
    createOrder db c a t items = .error "Items list must not be empty." ∧
    createOrderEndState db c a t items = db := by
  have hnil : items = [] := List.isEmpty_iff.mp h
  subst hnil
  exact ⟨rfl, rfl⟩

theorem create_empty_items_rejected_witness :
    createOrder dbW 1 "Main St 1" 0 [] = .error "Items list must not be empty." ∧
    createOrderEndState dbW 1 "Main St 1" 0 [] = dbW :=
  create_empty_items_rejected dbW 1 "Main St 1" 0 [] (by decide)

/-! ### C9: recalculation writes only `total_price` -/

/-- C9: `Order.recalculate_totals` is a single-field write: the item, product
and customer tables are untouched, and every order row keeps every field other
than `total_price` (the order list maps row-for-row with id, customer,
shipping address, creation date, due date, paid flag and reminder flag all
unchanged). -/
theorem recalculate_totals_frame (db : DB) (oid : Nat) :
    (recalculate_totals db oid).orderItems = db.orderItems ∧
    (recalculate_totals db oid).products = db.products ∧
    (recalculate_totals db oid).customers = db.customers ∧
    List.Forall₂
      (fun o o1 => o1.id = o.id ∧ o1.customerId = o.customerId ∧
        o1.shippingAddress = o.shippingAddress ∧ o1.createdAt = o.createdAt ∧
        o1.paymentDueDate = o.paymentDueDate ∧ o1.isPaid = o.isPaid ∧
        o1.paymentReminderSent = o.paymentReminderSent)
      db.orders (recalculate_totals db oid).orders := by
  refine ⟨rfl, rfl, rfl, ?_⟩
  apply forall2_map_self
  intro o _
  by_cases h : o.id = oid <;> simp [h]

/-! ### C8: payment due date default -/

/-- C8: on a save with no due date supplied, `Order.save` persists
`payment_due_date = creation date + 5 days` (on first save the creation date
is today); a supplied due date is kept unchanged; and the order persisted by
the creation flow carries `created_at = today` and due date `today + 5`. -/
theorem payment_due_date_default (o : Order) (isNew : Bool) (today d : Nat)
    (db : DB) (c : Nat) (a : String) :
    (o.paymentDueDate = none → o.createdAt = today →
      (orderSaveDueDate o isNew today).paymentDueDate = some (o.createdAt + 5)) ∧
    (o.paymentDueDate = some d →
      (orderSaveDueDate o isNew today).paymentDueDate = some d) ∧
    (∀ items db1 oid, createOrder db c a today items = .ok (db1, oid) →
      ∀ o1 ∈ db1.orders, o1 ∉ db.orders →
        o1.createdAt = today ∧ o1.paymentDueDate = some (today + 5)) := by
  refine ⟨?_, ?_, ?_⟩
  · intro hnone htoday
    cases isNew <;> simp [orderSaveDueDate, hnone, htoday]
  · intro hsome
    simp [orderSaveDueDate, hsome]
  · intro items db1 oid h o1 hmem hnot
    unfold createOrder at h
    split at h
    · exact absurd h (by simp)
    split at h
    · exact absurd h (by simp)
    split at h
    · exact absurd h (by simp)
    rw [Except.ok.injEq, Prod.mk.injEq] at h
    obtain ⟨hdb1, -⟩ := h
    subst hdb1
    simp only [List.mem_append, List.mem_singleton] at hmem
    rcases hmem with h | h
    · exact absurd h hnot
    · subst h
      exact ⟨rfl, rfl⟩

theorem payment_due_date_default_witness :
    (orderSaveDueDate oW8 true 7).paymentDueDate = some (oW8.createdAt + 5) :=
  (payment_due_date_default oW8 true 7 0 dbW 1 "x").1 rfl rfl

/-! ### C10: stats query parameter validation -/

/-- C10: the top-products query validates its parameters before touching data:
an explicit limit below 1 or above 100 is rejected, an absent limit defaults
to 10, and `date_from > date_to` yields a validation error (the view returns
an error response, never an empty result list). -/
theorem top_query_validation (db : DB) (df dt : Nat) (l : Int) :
    (l < 1 ∨ 100 < l → isError (validateTopQuery df dt (some l)) = true) ∧
    (df ≤ dt → validateTopQuery df dt none = .ok (df, dt, 10)) ∧
    (dt < df → isError (topProductsView db df dt (some l)) = true) ∧
    (dt < df → isError (topProductsView db df dt none) = true) := by
  refine ⟨?_, ?_, ?_, ?_⟩
  · intro h
    unfold validateTopQuery
    simp only [Option.getD]
    split
    · rfl
    split
    · rfl
    · omega
  · intro h
    unfold validateTopQuery
    simp only [Option.getD]
    split
    · omega
    split
    · omega
    split
    · omega
    · rfl
  · intro h
    unfold topProductsView
    cases hv : validateTopQuery df dt (some l) with
    | error e => rfl
    | ok v => exact absurd (validateTopQuery_ok_le df dt (some l) v hv) (by omega)
  · intro h
    unfold topProductsView
    cases hv : validateTopQuery df dt none with
    | error e => rfl
    | ok v => exact absurd (validateTopQuery_ok_le df dt none v hv) (by omega)

/-! ### Item-filter frame lemmas feeding the totals invariant -/

theorem filter_map_replace (items : List OrderItem) (it : OrderItem) (oid : Nat)
    (h : oid ≠ it.orderId) :
    ((items.map fun x =>
        if x.orderId == it.orderId && x.productId == it.productId then it else x).filter
      fun x => x.orderId == oid) =
      items.filter fun x => x.orderId == oid := by
  induction items with
  | nil => rfl
  | cons x xs ih =>
    simp only [List.map_cons]
    by_cases hc : (x.orderId == it.orderId && x.productId == it.productId) = true
    · have hxo : x.orderId = it.orderId := by
        simp only [Bool.and_eq_true, beq_iff_eq] at hc
        exact hc.1
      have hx : (x.orderId == oid) = false := by
        simp only [beq_eq_false_iff_ne]
        omega
      have hitf : (it.orderId == oid) = false := by
        simp only [beq_eq_false_iff_ne]
        omega
      rw [if_pos hc, List.filter_cons, List.filter_cons,
        if_neg (by simp [hitf]), if_neg (by simp [hx]), ih]
    · rw [if_neg hc, List.filter_cons, List.filter_cons, ih]

theorem filter_upsert_ne (items : List OrderItem) (it : OrderItem) (oid : Nat)
    (h : oid ≠ it.orderId) :
    ((upsertItem items it).filter fun x => x.orderId == oid) =
      items.filter fun x => x.orderId == oid := by
  unfold upsertItem
  split
  · exact filter_map_replace items it oid h
  · rw [List.filter_append]
    have hitf : ((it.orderId == oid) : Bool) = false := by
      simp only [beq_eq_false_iff_ne]
      omega
    simp [List.filter, hitf]

theorem filter_delete_ne (items : List OrderItem) (k pid oid : Nat) (h : oid ≠ k) :
    ((items.filter fun x => !(x.orderId == k && x.productId == pid)).filter
      fun x => x.orderId == oid) =
      items.filter fun x => x.orderId == oid := by
  rw [List.filter_filter]
  apply List.filter_congr
  intro x _
  by_cases hx : (x.orderId == oid) = true
  · have : (x.orderId == k) = false := by
      simp only [beq_iff_eq] at hx
      simp only [beq_eq_false_iff_ne]
      omega
    simp [hx, this]
  · simp only [Bool.not_eq_true] at hx
    simp [hx]

/-! ### C1: the totals invariant across creation and item mutations -/

/-- C1: starting from a well-formed state satisfying the totals invariant
(`Order.total_price` is the sum of `quantity * unit_price` over the order's
persisted items), the invariant holds again after a successful order creation
(the new order's total is computed from the persisted snapshot lines, not
taken from the client), after an `OrderItem` save (add or edit, via the
`post_save` signal recalculation), and after an `OrderItem` delete (via the
`post_delete` signal recalculation). -/
theorem order_totals_invariant (db : DB) (hwf : wfItems db) (hinv : totalsInvariant db) :
    (∀ c a t items db1 oid, createOrder db c a t items = .ok (db1, oid) →
      totalsInvariant db1) ∧
    (∀ it, totalsInvariant (saveOrderItem db it)) ∧
    (∀ oid pid, totalsInvariant (deleteOrderItem db oid pid)) := by
  refine ⟨?_, ?_, ?_⟩
  · intro c a t items db1 oid h
    unfold createOrder at h
    split at h
    · exact absurd h (by simp)
    split at h
    · exact absurd h (by simp)
    split at h
    · exact absurd h (by simp)
    rw [Except.ok.injEq, Prod.mk.injEq] at h
    obtain ⟨hdb1, hoid⟩ := h
    subst hdb1
    intro o ho
    simp only [List.mem_append, List.mem_singleton] at ho
    rcases ho with ho | ho
    · have hlt : o.id < nextOrderId db := id_lt_nextOrderId db o ho
      have hnew : ((items.map fun i =>
          ({ orderId := nextOrderId db, productId := i.productId, quantity := i.quantity,
             unitPrice := priceOf db i.productId } : OrderItem)).filter
            fun x => x.orderId == o.id) = [] := by
        rw [List.filter_eq_nil_iff]
        intro x hx
        obtain ⟨i, -, hi⟩ := List.mem_map.mp hx
        subst hi
        simp only [beq_iff_eq]
        omega
      unfold itemsTotal
      simp only [List.filter_append, hnew, List.append_nil]
      exact hinv o ho
    · subst ho
      have hold : (db.orderItems.filter fun x => x.orderId == nextOrderId db) = [] := by
        rw [List.filter_eq_nil_iff]
        intro x hx
        obtain ⟨o1, ho1, hid⟩ := hwf x hx
        have := id_lt_nextOrderId db o1 ho1
        simp only [beq_iff_eq]
        omega
      have hkeep : ((items.map fun i =>
          ({ orderId := nextOrderId db, productId := i.productId, quantity := i.quantity,
             unitPrice := priceOf db i.productId } : OrderItem)).filter
            fun x => x.orderId == nextOrderId db) =
          items.map fun i =>
            ({ orderId := nextOrderId db, productId := i.productId, quantity := i.quantity,
               unitPrice := priceOf db i.productId } : OrderItem) := by
        rw [List.filter_eq_self]
        intro x hx
        obtain ⟨i, -, hi⟩ := List.mem_map.mp hx
        subst hi
        simp
      unfold itemsTotal
      simp only [orderSaveDueDate]
      simp only [List.filter_append, hold, hkeep, List.nil_append, List.map_map]
  · intro it o2 ho2
    obtain ⟨o, ho, hg⟩ := List.mem_map.mp ho2
    by_cases hid : o.id = it.orderId
    · have ho2eq : o2 = { o with
          totalPrice := itemsTotal { db with orderItems := upsertItem db.orderItems it }
            it.orderId } := by
        rw [← hg, if_pos hid]
      rw [ho2eq]
      show itemsTotal { db with orderItems := upsertItem db.orderItems it } it.orderId =
        itemsTotal (saveOrderItem db it) o.id
      unfold itemsTotal
      rw [hid]
      rfl
    · have ho2eq : o2 = o := by
        rw [← hg, if_neg hid]
      rw [ho2eq]
      show o.totalPrice = itemsTotal (saveOrderItem db it) o.id
      have hfr : ((saveOrderItem db it).orderItems.filter fun x => x.orderId == o.id) =
          db.orderItems.filter fun x => x.orderId == o.id :=
        filter_upsert_ne db.orderItems it o.id hid
      unfold itemsTotal
      rw [hfr]
      exact hinv o ho
  · intro oid pid o2 ho2
    obtain ⟨o, ho, hg⟩ := List.mem_map.mp ho2
    by_cases hid : o.id = oid
    · have ho2eq : o2 = { o with
          totalPrice := itemsTotal
            { db with
              orderItems := db.orderItems.filter
                fun x => !(x.orderId == oid && x.productId == pid) } oid } := by
        rw [← hg, if_pos hid]
      rw [ho2eq]
      show itemsTotal
          { db with
            orderItems := db.orderItems.filter
              fun x => !(x.orderId == oid && x.productId == pid) } oid =
        itemsTotal (deleteOrderItem db oid pid) o.id
      unfold itemsTotal
      rw [hid]
      rfl
    · have ho2eq : o2 = o := by
        rw [← hg, if_neg hid]
      rw [ho2eq]
      show o.totalPrice = itemsTotal (deleteOrderItem db oid pid) o.id
      have hfr : ((deleteOrderItem db oid pid).orderItems.filter
            fun x => x.orderId == o.id) =
          db.orderItems.filter fun x => x.orderId == o.id :=
        filter_delete_ne db.orderItems oid pid o.id hid
      unfold itemsTotal
      rw [hfr]
      exact hinv o ho

theorem order_totals_invariant_witness :
    wfItems dbW ∧ totalsInvariant dbW ∧ totalsInvariant (saveOrderItem dbW itW) :=
  ⟨by unfold wfItems; decide, by unfold totalsInvariant; decide,
   (order_totals_invariant dbW (by unfold wfItems; decide)
     (by unfold totalsInvariant; decide)).2.1 itW⟩

/-! ### C5: unit-price snapshot semantics -/

/-- C5: every `OrderItem` persisted by the order-creation flow carries
`unit_price = product.price` as read at creation time (the persisted item list
is exactly the input lines with the current catalog price snapshotted in), and
nothing re-reads or rewrites it afterward: a later catalog price change
(`setProductPrice`) and total recalculation both leave the `OrderItem` table
untouched. -/
theorem unit_price_snapshot (db : DB) (c : Nat) (a : String) (t : Nat)
    (items : List ItemInput) (db1 : DB) (oid : Nat)
    (h : createOrder db c a t items = .ok (db1, oid)) :
    db1.orderItems = db.orderItems ++ items.map (fun i =>
      ({ orderId := oid, productId := i.productId, quantity := i.quantity,
         unitPrice := priceOf db i.productId } : OrderItem)) ∧
    (∀ i ∈ items, ∀ p, findProduct db i.productId = some p →
      ({ orderId := oid, productId := i.productId, quantity := i.quantity,
         unitPrice := p.price } : OrderItem) ∈ db1.orderItems) ∧
    (∀ pid np, (setProductPrice db pid np).orderItems = db.orderItems) ∧
    (∀ k, (recalculate_totals db k).orderItems = db.orderItems) := by
  unfold createOrder at h
  split at h
  · exact absurd h (by simp)
  split at h
  · exact absurd h (by simp)
  split at h
  · exact absurd h (by simp)
  rw [Except.ok.injEq, Prod.mk.injEq] at h
  obtain ⟨hdb1, hoid⟩ := h
  subst hdb1
  subst hoid
  refine ⟨rfl, ?_, fun pid np => rfl, fun k => rfl⟩
  intro i hi p hp
  simp only [List.mem_append]
  right
  exact List.mem_map.mpr ⟨i, hi, by simp [priceOf, hp]⟩

theorem unit_price_snapshot_witness :
    ({ orderId := nextOrderId dbW, productId := 2, quantity := 4,
       unitPrice := 300 } : OrderItem) ∈
      (createOrderEndState dbW 1 "Main St 1" 0 [⟨2, 4⟩]).orderItems :=
  (unit_price_snapshot dbW 1 "Main St 1" 0 [⟨2, 4⟩]
      (createOrderEndState dbW 1 "Main St 1" 0 [⟨2, 4⟩]) (nextOrderId dbW)
      rfl).2.1 ⟨2, 4⟩ (by decide) ⟨2, 1, "Cap", 300⟩ rfl

/-! ### C7: top-products statistics -/

theorem statKey_iff (a b : Nat × Nat) :
    statKey a b = true ↔ b.2 < a.2 ∨ (a.2 = b.2 ∧ a.1 ≤ b.1) := by
  simp [statKey]

theorem statKey_trans (a b c : Nat × Nat) (hab : statKey a b = true)
    (hbc : statKey b c = true) : statKey a c = true := by
  rw [statKey_iff] at *
  omega

theorem statKey_total (a b : Nat × Nat) :
    statKey a b = true ∨ statKey b a = true := by
  rw [statKey_iff, statKey_iff]
  omega

/-- C7: the top-products query returns rows `(product_id, units_ordered)`
where `units_ordered` is the total quantity of that product over OrderItems
whose parent order was created within the inclusive range; the rows are
sorted by descending quantity with ties broken by ascending product id; the
result holds `min N (number of products ordered in range)` rows; every
returned row ranks at least as high as every aggregated row left out (so the
result is a true top-N); and a range containing no orders yields an empty
list rather than an error. -/
theorem top_products_spec (db : DB) (dfrom dto limit : Nat) :
    (∀ r ∈ top_products db dfrom dto limit,
      r.2 = unitsOf db dfrom dto r.1 ∧ r.1 ∈ rangeProductIds db dfrom dto) ∧
    (top_products db dfrom dto limit).Pairwise
      (fun a b => b.2 < a.2 ∨ (a.2 = b.2 ∧ a.1 ≤ b.1)) ∧
    (top_products db dfrom dto limit).length =
      min limit (aggRows db dfrom dto).length ∧
    (∀ q ∈ aggRows db dfrom dto, q ∉ top_products db dfrom dto limit →
      ∀ r ∈ top_products db dfrom dto limit,
        q.2 < r.2 ∨ (r.2 = q.2 ∧ r.1 ≤ q.1)) ∧
    ((∀ o ∈ db.orders, inRange dfrom dto o.createdAt = false) →
      top_products db dfrom dto limit = []) := by
  have hperm := sortWith_perm statKey (aggRows db dfrom dto)
  have hpair := sortWith_pairwise statKey statKey_trans statKey_total
    (aggRows db dfrom dto)
  refine ⟨?_, ?_, ?_, ?_, ?_⟩
  · intro r hr
    have hrS : r ∈ sortWith statKey (aggRows db dfrom dto) :=
      List.take_subset _ _ hr
    have hragg : r ∈ aggRows db dfrom dto := hperm.mem_iff.mp hrS
    obtain ⟨pid, hpid, hreq⟩ := List.mem_map.mp hragg
    rw [← hreq]
    exact ⟨rfl, hpid⟩
  · have := List.Pairwise.sublist (List.take_sublist limit _) hpair
    exact this.imp fun h => (statKey_iff _ _).mp h
  · unfold top_products
    rw [List.length_take, hperm.length_eq]
  · intro q hq hnot r hr
    have hqS : q ∈ sortWith statKey (aggRows db dfrom dto) := hperm.mem_iff.mpr hq
    rw [← List.take_append_drop limit (sortWith statKey (aggRows db dfrom dto)),
      List.mem_append] at hqS
    rcases hqS with hqS | hqS
    · exact absurd hqS hnot
    · have hpair2 : List.Pairwise (fun a b => statKey a b = true)
          (List.take limit (sortWith statKey (aggRows db dfrom dto)) ++
            List.drop limit (sortWith statKey (aggRows db dfrom dto))) := by
        rw [List.take_append_drop]
        exact hpair
      have hsplit := List.pairwise_append.mp hpair2
      exact (statKey_iff r q).mp (hsplit.2.2 r hr q hqS)
  · intro h
    have hempty : itemsInRange db dfrom dto = [] := by
      unfold itemsInRange
      rw [List.filter_eq_nil_iff]
      intro it hit
      cases hf : findOrder db it.orderId with
      | none => simp [hf]
      | some o =>
        have ho : o ∈ db.orders := List.mem_of_find?_eq_some hf
        simp [hf, h o ho]
    unfold top_products aggRows rangeProductIds
    rw [hempty]
    simp [List.dedup_nil, sortWith]

theorem top_products_spec_witness :
    top_products dbW 50 60 10 = [] :=
  (top_products_spec dbW 50 60 10).2.2.2.2 (by decide)

/-! ### C6: reminder batch selection -/

theorem reminderPred_iff (today : Nat) (o : Order) :
    reminderPred today o = true ↔
      o.paymentDueDate = some (today + 1) ∧ o.isPaid = false ∧
        o.paymentReminderSent = false := by
  simp [reminderPred, Bool.and_eq_true, Bool.not_eq_true', and_assoc]

/-- C6: the reminder batch iterates over exactly the orders that are due
tomorrow, unpaid, and not yet reminded, in ascending primary-key order; in
particular a paid order is never selected, whatever its reminder flag. -/
theorem reminder_selection (db : DB) (today : Nat) :
    (∀ o, o ∈ selectReminders db today ↔
      o ∈ db.orders ∧ o.paymentDueDate = some (today + 1) ∧
        o.isPaid = false ∧ o.paymentReminderSent = false) ∧
    (selectReminders db today).Pairwise (fun a b => a.id ≤ b.id) ∧
    (∀ o ∈ db.orders, o.isPaid = true → o ∉ selectReminders db today) := by
  have hmem : ∀ o, o ∈ selectReminders db today ↔
      o ∈ db.orders ∧ o.paymentDueDate = some (today + 1) ∧
        o.isPaid = false ∧ o.paymentReminderSent = false := by
    intro o
    unfold selectReminders
    rw [(sortWith_perm orderPkLe _).mem_iff, List.mem_filter, reminderPred_iff]
  refine ⟨hmem, ?_, ?_⟩
  · have hs := sortWith_pairwise orderPkLe
      (fun a b c hab hbc => by
        simp only [orderPkLe, decide_eq_true_eq] at *
        omega)
      (fun a b => by
        simp only [orderPkLe, decide_eq_true_eq]
        omega)
      (db.orders.filter (reminderPred today))
    exact hs.imp fun h => by simpa [orderPkLe] using h
  · intro o ho hpaid hin
    have := ((hmem o).mp hin).2.2.1
    simp [hpaid] at this

theorem reminder_selection_witness :
    (⟨1, 1, "Main St 1", 0, some 1, 1000, false, false⟩ : Order) ∈
      selectReminders dbW 0 :=
  ((reminder_selection dbW 0).1 _).mpr ⟨by decide, by decide, by decide, by decide⟩

/-! ### C3: reminder batch is idempotent across consecutive runs -/

/-- C3: with one unpaid, unreminded order due tomorrow whose customer has an
email, and a mail backend that delivers, the first batch run returns 1 and
flips `payment_reminder_sent`; re-running immediately on the resulting state
returns 0 — no duplicate reminder is sent. -/
theorem reminder_batch_idempotent (db : DB) (today : Nat) (o : Order) (e : String)
    (horders : db.orders = [o]) (hpred : reminderPred today o = true)
    (hemail : emailOf db o = some e) :
    send_payment_reminders db today (fun _ => .delivered) =
      .ok (markReminderSent db o.id, 1) ∧
    (∀ o1 ∈ (markReminderSent db o.id).orders, o1.paymentReminderSent = true) ∧
    send_payment_reminders (markReminderSent db o.id) today (fun _ => .delivered) =
      .ok (markReminderSent db o.id, 0) := by
  have hsel : selectReminders db today = [o] := by
    unfold selectReminders
    rw [horders]
    simp [List.filter, hpred, sortWith, insertSorted]
  have hflag : (markReminderSent db o.id).orders =
      [{ o with paymentReminderSent := true }] := by
    unfold markReminderSent
    rw [horders]
    simp
  refine ⟨?_, ?_, ?_⟩
  · unfold send_payment_reminders
    rw [hsel]
    unfold reminderLoop
    rw [hemail]
    rfl
  · intro o1 h1
    rw [hflag] at h1
    simp only [List.mem_singleton] at h1
    subst h1
    rfl
  · have hsel2 : selectReminders (markReminderSent db o.id) today = [] := by
      unfold selectReminders
      rw [hflag]
      simp [List.filter, reminderPred, sortWith]
    unfold send_payment_reminders
    rw [hsel2]
    rfl

theorem reminder_batch_idempotent_witness :
    send_payment_reminders dbW 0 (fun _ => .delivered) =
      .ok (markReminderSent dbW 1, 1) ∧
    send_payment_reminders (markReminderSent dbW 1) 0 (fun _ => .delivered) =
      .ok (markReminderSent dbW 1, 0) :=
  ⟨(reminder_batch_idempotent dbW 0 ⟨1, 1, "Main St 1", 0, some 1, 1000, false, false⟩
      "user@example.com" rfl (by decide) rfl).1,
   (reminder_batch_idempotent dbW 0 ⟨1, 1, "Main St 1", 0, some 1, 1000, false, false⟩
      "user@example.com" rfl (by decide) rfl).2.2⟩

/-! ### C4: behaviour of the batch under a transient delivery failure -/

/-- C4 counterexample: in a state with two selected orders (both due tomorrow,
unpaid, unreminded, customers with emails), a raising transient delivery
failure on order 1 makes the whole task return an error with the state
unchanged: order 2 — selected and deliverable — is never processed, and no
count is returned. This contradicts the claim that only the failing order is
skipped and every later selected order is still processed. -/
theorem reminder_failure_aborts_counterexample :
    selectReminders dbC4 0 =
      [⟨1, 1, "A St", 0, some 1, 100, false, false⟩,
       ⟨2, 2, "B St", 0, some 1, 200, false, false⟩] ∧
    send_payment_reminders dbC4 0 sendC4 = .error dbC4 ∧
    (∀ o ∈ dbC4.orders, o.paymentReminderSent = false) := by
  refine ⟨rfl, rfl, by decide⟩

/-- C4 amended: inside the batch loop, a delivery attempt that raises a
network/protocol exception aborts the run at that order
(`fail_silently=False` lets the exception propagate; the whole task is then
retried by the job runner), leaving the state committed so far and never
reaching the remaining selected orders; only a send that fails by returning 0
is skipped per order — logged, counted as not-sent — with the batch
continuing. -/
theorem reminder_failure_aborts (send : Nat → SendOutcome) (db : DB) (sent : Nat)
    (o : Order) (rest : List Order) (e : String)
    (hemail : emailOf db o = some e) :
    (send o.id = .raised → reminderLoop send (o :: rest) db sent = .error db) ∧
    (send o.id = .notDelivered →
      reminderLoop send (o :: rest) db sent = reminderLoop send rest db sent) := by
  constructor
  · intro hr
    rw [reminderLoop.eq_def]
    simp only [hemail, hr]
  · intro hn
    conv_lhs => rw [reminderLoop.eq_def]
    simp only [hemail, hn]

theorem reminder_failure_aborts_witness :
    reminderLoop (fun _ => .raised)
      ((⟨1, 1, "Main St 1", 0, some 1, 1000, false, false⟩ : Order) :: []) dbW 0 =
      .error dbW :=
  (reminder_failure_aborts (fun _ => .raised) dbW 0
      ⟨1, 1, "Main St 1", 0, some 1, 1000, false, false⟩ [] "user@example.com" rfl).1 rfl

theorem top_query_validation_witness :
    isError (validateTopQuery 3 9 (some 0)) = true ∧
    validateTopQuery 3 9 none = .ok (3, 9, 10) ∧
    isError (topProductsView dbW 9 3 (some 5)) = true ∧
    isError (topProductsView dbW 9 3 none) = true :=
  ⟨(top_query_validation dbW 3 9 0).1 (Or.inl (by decide)),
   (top_query_validation dbW 3 9 0).2.1 (by decide),
   (top_query_validation dbW 9 3 5).2.2.1 (by decide),
   (top_query_validation dbW 9 3 5).2.2.2 (by decide)⟩

end Shop
